import Mathlib

/-!
Verification development for `src/supermarket/src/app.rs`, a single-screen
terminal dashboard. The Rust code is shallowly embedded: machine integers
become `ℕ` (with explicit saturation where a cast saturates), `f32`
arithmetic is modelled as exact rational arithmetic on `ℚ` (the division
special cases at a zero denominator are made explicit where they can
arise), and a Rust panic (`expect`, integer division by zero, a widget
assertion) becomes `Except.error`.
-/

namespace Supermarket

/-- One process entry as consumed by the renderer: identifier, display
name, resident memory in bytes (`sysinfo::Process`). -/
structure ProcessInfo where
  pid : ℕ
  name : String
  memory : ℕ
deriving Repr, DecidableEq

/-- The metrics snapshot read in `render` (app.rs:49-53 and the getters
used later). Host-identity getters and the physical core count may report
absence (`Option`); memory counts are unsigned byte counts; the global
CPU usage is an `f32`, modelled as `ℚ`. -/
structure Snapshot where
  name : Option String
  hostName : Option String
  osVersion : Option String
  kernelVersion : Option String
  physicalCoreCount : Option ℕ
  totalMemory : ℕ
  usedMemory : ℕ
  cpuUsage : ℚ
  processes : List ProcessInfo
deriving Repr

/-- Rust `as u16` applied to a nonnegative finite `f32`: truncate toward
zero, saturating at 65535. (A negative input would give 0 via `Int.toNat`,
matching the saturating cast; NaN and infinity cannot be represented in
`ℚ` and are handled explicitly at their only source, a zero divisor.) -/
def f32ToU16 (q : ℚ) : ℕ :=
  min ⌊q⌋.toNat 65535

/-- app.rs:72, the memory gauge fill:
`(100.0 * (sys.used_memory() as f32 / sys.total_memory() as f32)) as u16`.
For `total = 0` the IEEE cases are spelled out: `0.0 / 0.0` is NaN and
casts to 0; `x / 0.0` with `x > 0` is `+∞` and the cast saturates
to 65535. For `total ≠ 0` the `f32` division is modelled as exact
rational division. -/
def memoryBarPercent (used total : ℕ) : ℕ :=
  if total = 0 then (if used = 0 then 0 else 65535)
  else f32ToU16 (100 * ((used : ℚ) / (total : ℚ)))

/-- app.rs:75-78, the memory gauge label: `format!("{}%", (...).round())`
on the same expression. `f32::round` rounds half away from zero, which on
the nonnegative values arising here agrees with `round` on `ℚ`. At
`total = 0` the float is NaN or `+∞` and no integer percentage is
produced (`none`). -/
def memoryBarLabelVal (used total : ℕ) : Option ℤ :=
  if total = 0 then none
  else some (round (100 * ((used : ℚ) / (total : ℚ))))

/-- app.rs:83, the CPU gauge fill: `(usage) as u16` — truncation of the
raw usage float. -/
def usageBarPercent (q : ℚ) : ℕ :=
  f32ToU16 q

/-- app.rs:86, the CPU gauge label: `format!("{}%", (usage.round()))`. -/
def usageBarLabel (q : ℚ) : String :=
  toString (round q) ++ "%"

/-- Modelled from the spec: the gauge widget is an external collaborator
("percentage gauge", §6), a "bounded 0–100 percent visual bar"
(glossary); §4.2 requires the fill to be "clamped into the gauge widget's
accepted range", so a fill outside `0..=100` is outside the widget's
contract and faults (the widget library asserts exactly this bound when
`percent` is set). -/
def gaugeSetPercent (p : ℕ) : Except String ℕ :=
  if p ≤ 100 then Except.ok p
  else Except.error "Percentage should be between 0 and 100 inclusively"

/-- Insertion step for ordering processes by resident memory,
descending. -/
def insertByMemDesc (p : ProcessInfo) : List ProcessInfo → List ProcessInfo
  | [] => [p]
  | q :: rest =>
    if p.memory ≤ q.memory then q :: insertByMemDesc p rest
    else p :: q :: rest

/-- app.rs:92-93: the process list is sorted with
`sort_unstable_by(|a, b| (b.1.memory()).cmp(&a.1.memory()))`, i.e. by
resident memory descending. The model uses a structurally recursive
insertion sort with the same key; the facts proved below use only that
the output is a permutation of the input (hence its length). The model
sort happens to be stable, which is a model artifact: the source's
`sort_unstable_by` guarantees nothing about the order of tied elements. -/
def sortByMemDesc : List ProcessInfo → List ProcessInfo
  | [] => []
  | p :: rest => insertByMemDesc p (sortByMemDesc rest)

/-- app.rs:103: `100 * process.memory() / sys.total_memory()` — Rust
unsigned integer division; dividing by zero panics. -/
def processRowPercent (pmem total : ℕ) : Except String ℕ :=
  if total = 0 then Except.error "attempt to divide by zero"
  else Except.ok (100 * pmem / total)

/-- The row loop of app.rs:96-110 applied to an already-truncated list:
one `(name, percent)` row per process, faulting if any row's division
faults. (The header row of app.rs:95 and the cosmetic banding of
app.rs:105-108 carry no data and are not modelled.) -/
def buildRows (total : ℕ) : List ProcessInfo → Except String (List (String × ℕ))
  | [] => Except.ok []
  | p :: rest =>
    match processRowPercent p.memory total, buildRows total rest with
    | Except.ok pct, Except.ok rs => Except.ok ((p.name, pct) :: rs)
    | Except.error e, _ => Except.error e
    | _, Except.error e => Except.error e

/-- The data rows of the process table: app.rs:96-110 iterates the sorted
list and breaks once `i >= 10`, i.e. it processes exactly the first 10
sorted entries (or all of them when fewer exist). -/
def tableDataRows (total : ℕ) (procs : List ProcessInfo) :
    Except String (List (String × ℕ)) :=
  buildRows total ((sortByMemDesc procs).take 10)

/-- Rust `Option::expect(msg)`: the value when present, a panic carrying
`msg` when absent. -/
def expectField {α : Type} (o : Option α) (msg : String) : Except String α :=
  match o with
  | some a => Except.ok a
  | none => Except.error msg

/-- The display values produced by one successful render pass. -/
structure RenderOut where
  memFill : ℕ
  memLabel : Option ℤ
  cpuFill : ℕ
  cpuLabel : String
  dataRows : List (String × ℕ)
  sysName : String
  hostName : String
  osVersion : String
  kernelVersion : String
  coreCount : ℕ
  totalRamGB : ℚ
deriving Repr

/-- The render pass, `impl Widget for App` (app.rs:42-164), in source order:
the memory gauge percent is set first (the widget's 0..=100 assertion
fires at app.rs:72), then the CPU gauge percent (app.rs:83), then the
table row loop with its per-row integer division (app.rs:96-110), then
the four `expect`ed host-identity strings (app.rs:125-141) and the
`expect`ed physical core count (app.rs:149). The `Layout` splits carry no
data and are not modelled. A Rust panic anywhere is `Except.error`. -/
def render (s : Snapshot) : Except String RenderOut := do
  let memP ← gaugeSetPercent (memoryBarPercent s.usedMemory s.totalMemory)
  let cpuP ← gaugeSetPercent (usageBarPercent s.cpuUsage)
  let rows ← tableDataRows s.totalMemory s.processes
  let nm ← expectField s.name "Name not found!"
  let hn ← expectField s.hostName "Name not found!"
  let ov ← expectField s.osVersion "Name not found!"
  let kv ← expectField s.kernelVersion "Name not found!"
  let cc ← expectField s.physicalCoreCount "No Cores!"
  Except.ok
    { memFill := memP
      memLabel := memoryBarLabelVal s.usedMemory s.totalMemory
      cpuFill := cpuP
      cpuLabel := usageBarLabel s.cpuUsage
      dataRows := rows
      sysName := nm
      hostName := hn
      osVersion := ov
      kernelVersion := kv
      coreCount := cc
      totalRamGB := (s.totalMemory : ℚ) / 2 ^ 30 }

/-- Returns `true` exactly when the computation did not fault. -/
def exceptOk {ε α : Type} : Except ε α → Bool
  | Except.ok _ => true
  | Except.error _ => false

/-- The key codes distinguished by app.rs:192-200. -/
inductive KeyCode where
  | charQ
  | left
  | right
  | other
deriving Repr, DecidableEq

/-- Kind of a key event, `crossterm::event::KeyEventKind`. -/
inductive KeyEventKind where
  | press
  | release
  | rep
deriving Repr, DecidableEq

/-- A key event: code plus kind. -/
structure KeyEvent where
  code : KeyCode
  kind : KeyEventKind
deriving Repr, DecidableEq

/-- A terminal event: a key event or anything else. -/
inductive Event where
  | key (e : KeyEvent)
  | other
deriving Repr, DecidableEq

/-- The interaction state (app.rs:20-24): `exit` flag and selected pane
index `curr`. -/
structure App where
  exit : Bool
  curr : ℕ
deriving Repr, DecidableEq

/-- The `Default for App` impl (app.rs:32-39): `exit = false`, `curr = 0`. -/
def App.default : App :=
  { exit := false, curr := 0 }

/-- Key handling, `App::handle_key_event` (app.rs:192-200): `q` sets the exit flag,
Left steps `curr` by +2 mod 3, Right by +1 mod 3, anything else is
ignored. -/
def handleKeyEvent (s : App) (k : KeyEvent) : App :=
  match k.code with
  | KeyCode.charQ => { s with exit := true }
  | KeyCode.left => { s with curr := (s.curr + 2) % 3 }
  | KeyCode.right => { s with curr := (s.curr + 1) % 3 }
  | KeyCode.other => s

/-- Event filtering, `App::handle_events` (app.rs:180-190): only key events whose kind is
`Press` reach `handle_key_event`; everything else is ignored. -/
def handleEvent (s : App) (e : Event) : App :=
  match e with
  | Event.key ke =>
    if ke.kind = KeyEventKind.press then handleKeyEvent s ke else s
  | Event.other => s

/-- One observable step of the main loop. -/
inductive Action where
  | draw
  | wait
deriving Repr, DecidableEq

/-- The main loop, `App::run` (app.rs:168-174): `while !self.exit { draw; handle one
blocking input event }`. Given the (finite) sequence of events the
terminal will deliver, returns the sequence of completed draw / wait
steps together with the final state. When the events are exhausted while
the loop is still running, the last completed step is the draw — the
following blocking read never returns. -/
def runLoop (s : App) : List Event → List Action × App
  | [] => if s.exit then ([], s) else ([Action.draw], s)
  | e :: rest =>
    if s.exit then ([], s)
    else
      (Action.draw :: Action.wait :: (runLoop (handleEvent s e) rest).1,
        (runLoop (handleEvent s e) rest).2)

/-- State after `n` repetitions of the same key press starting from the default
state. -/
def iterKey (c : KeyCode) : ℕ → App
  | 0 => App.default
  | n + 1 => handleKeyEvent (iterKey c n) { code := c, kind := KeyEventKind.press }

end Supermarket

namespace Supermarket

/-! ### Helper lemmas -/

lemma handleEvent_curr_lt (s : App) (e : Event) (h : s.curr < 3) :
    (handleEvent s e).curr < 3 := by
  cases e with
  | key ke =>
    by_cases hk : ke.kind = KeyEventKind.press
    · simp only [handleEvent, hk, if_true]
      cases hc : ke.code <;> simp [handleKeyEvent, hc] <;> omega
    · simpa [handleEvent, hk] using h
  | other => simpa [handleEvent] using h

lemma runLoop_curr_lt (evs : List Event) :
    ∀ s : App, s.curr < 3 → ((runLoop s evs).2).curr < 3 := by
  induction evs with
  | nil =>
    intro s h
    simp only [runLoop]
    split
    · exact h
    · exact h
  | cons e rest ih =>
    intro s h
    simp only [runLoop]
    split
    · exact h
    · exact ih _ (handleEvent_curr_lt s e h)

lemma iterKey_right_curr (n : ℕ) : (iterKey KeyCode.right n).curr = n % 3 := by
  induction n with
  | zero => rfl
  | succ n ih =>
    simp only [iterKey, handleKeyEvent, ih]
    omega

lemma iterKey_left_curr (n : ℕ) : (iterKey KeyCode.left n).curr = (2 * n) % 3 := by
  induction n with
  | zero => rfl
  | succ n ih =>
    simp only [iterKey, handleKeyEvent, ih]
    omega

lemma runLoop_of_exit (s : App) (h : s.exit = true) (evs : List Event) :
    runLoop s evs = ([], s) := by
  cases evs <;> simp [runLoop, h]

lemma runLoop_trace_shape (s : App) (evs : List Event) :
    (runLoop s evs).1 = [] ∨ ∃ tl, (runLoop s evs).1 = Action.draw :: tl := by
  cases evs with
  | nil =>
    simp only [runLoop]
    split
    · exact Or.inl rfl
    · exact Or.inr ⟨[], rfl⟩
  | cons e rest =>
    simp only [runLoop]
    split
    · exact Or.inl rfl
    · exact Or.inr ⟨_, rfl⟩

lemma runLoop_chain (evs : List Event) :
    ∀ s : App, List.Chain' (fun a b => a ≠ b) (runLoop s evs).1 := by
  induction evs with
  | nil =>
    intro s
    simp only [runLoop]
    split
    · simp
    · simp
  | cons e rest ih =>
    intro s
    simp only [runLoop]
    split
    · simp
    · rcases runLoop_trace_shape (handleEvent s e) rest with h0 | ⟨tl, h0⟩ <;> rw [h0]
      · simp
      · have hch := ih (handleEvent s e)
        rw [h0] at hch
        exact List.chain'_cons.mpr ⟨by decide, List.chain'_cons.mpr ⟨by decide, hch⟩⟩

/-! ### Claim theorems: interaction state and loop -/

/-- C7: starting from the default interaction state, the selected pane
index stays in {0,1,2} under every event sequence the loop can process;
`n` repeated Right (next) presses leave it at `n % 3` (cycling 0→1→2→0)
and `n` repeated Left (previous) presses leave it at `2 * n % 3` (cycling
0→2→1→0) — modulo-3 wraparound, never clamping. -/
theorem selected_index_invariant :
    (∀ evs : List Event, ((runLoop App.default evs).2).curr < 3)
    ∧ (∀ n : ℕ, (iterKey KeyCode.right n).curr = n % 3)
    ∧ (∀ n : ℕ, (iterKey KeyCode.left n).curr = (2 * n) % 3) :=
  ⟨fun evs => runLoop_curr_lt evs App.default (by decide),
    iterKey_right_curr, iterKey_left_curr⟩

/-- C10: from any interaction state with a valid pane index, a Right
(next) press followed by a Left (previous) press restores the index, and
neither press changes the exit flag. -/
theorem next_prev_roundtrip (s : App) (h : s.curr < 3) :
    (handleKeyEvent (handleKeyEvent s { code := KeyCode.right, kind := KeyEventKind.press })
        { code := KeyCode.left, kind := KeyEventKind.press }).curr = s.curr
    ∧ (handleKeyEvent s { code := KeyCode.right, kind := KeyEventKind.press }).exit = s.exit
    ∧ (handleKeyEvent (handleKeyEvent s { code := KeyCode.right, kind := KeyEventKind.press })
        { code := KeyCode.left, kind := KeyEventKind.press }).exit = s.exit := by
  refine ⟨?_, rfl, rfl⟩
  simp only [handleKeyEvent]
  omega

/-- C10 witness, at the concrete state `exit = false`, `curr = 1`. -/
theorem next_prev_roundtrip_witness :
    (1 : ℕ) < 3
    ∧ ((handleKeyEvent (handleKeyEvent { exit := false, curr := 1 } { code := KeyCode.right, kind := KeyEventKind.press })
          { code := KeyCode.left, kind := KeyEventKind.press }).curr = 1
      ∧ (handleKeyEvent { exit := false, curr := 1 } { code := KeyCode.right, kind := KeyEventKind.press }).exit = false
      ∧ (handleKeyEvent (handleKeyEvent { exit := false, curr := 1 } { code := KeyCode.right, kind := KeyEventKind.press })
          { code := KeyCode.left, kind := KeyEventKind.press }).exit = false) :=
  ⟨by decide, next_prev_roundtrip { exit := false, curr := 1 } (by decide)⟩

/-- C8: every trace of the main loop strictly alternates: adjacent steps
always differ, so there are never two draws without an intervening input
wait nor two waits without an intervening draw; and when the quit key is
the very first event, the loop performs exactly one draw and one input
wait and then terminates with the exit flag set. -/
theorem loop_alternation :
    (∀ (s : App) (evs : List Event),
      List.Chain' (fun a b => a ≠ b) (runLoop s evs).1)
    ∧ (∀ rest : List Event,
        runLoop App.default
            (Event.key { code := KeyCode.charQ, kind := KeyEventKind.press } :: rest)
          = ([Action.draw, Action.wait], { exit := true, curr := 0 })) := by
  constructor
  · intro s evs
    exact runLoop_chain evs s
  · intro rest
    have hstate :
        handleEvent { exit := false, curr := 0 }
            (Event.key { code := KeyCode.charQ, kind := KeyEventKind.press })
          = { exit := true, curr := 0 } := rfl
    have h1 : runLoop { exit := true, curr := 0 } rest = ([], { exit := true, curr := 0 }) :=
      runLoop_of_exit _ rfl rest
    simp [runLoop, App.default, hstate, h1]

end Supermarket

namespace Supermarket

/-! ### Claim theorems: process table -/

lemma insertByMemDesc_length (p : ProcessInfo) (l : List ProcessInfo) :
    (insertByMemDesc p l).length = l.length + 1 := by
  induction l with
  | nil => rfl
  | cons q rest ih =>
    simp only [insertByMemDesc]
    split <;> simp [ih]

lemma sortByMemDesc_length (l : List ProcessInfo) :
    (sortByMemDesc l).length = l.length := by
  induction l with
  | nil => rfl
  | cons p rest ih => simp [sortByMemDesc, insertByMemDesc_length, ih]

lemma buildRows_of_pos (t : ℕ) (ht : t ≠ 0) (l : List ProcessInfo) :
    buildRows t l = Except.ok (l.map fun p => (p.name, 100 * p.memory / t)) := by
  induction l with
  | nil => rfl
  | cons p rest ih => simp [buildRows, processRowPercent, ht, ih]

/-- C6: for a positive memory total, the process table's data rows are
exactly one row per entry of the first 10 sorted processes, hence exactly
`min 10 processCount` rows: the first 10 when at least 10 processes
exist, all of them when fewer exist. -/
theorem table_row_count (total : ℕ) (procs : List ProcessInfo) (h : 0 < total) :
    tableDataRows total procs
        = Except.ok (((sortByMemDesc procs).take 10).map
            fun p => (p.name, 100 * p.memory / total))
    ∧ (((sortByMemDesc procs).take 10).map
          fun p => (p.name, 100 * p.memory / total)).length
        = min 10 procs.length := by
  constructor
  · exact buildRows_of_pos total (Nat.pos_iff_ne_zero.mp h) _
  · simp [List.length_take, sortByMemDesc_length]

/-- The process list used in the C6 witness. -/
def sampleProcs : List ProcessInfo :=
  [{ pid := 1, name := "a", memory := 4 },
    { pid := 2, name := "b", memory := 4 },
    { pid := 3, name := "c", memory := 2 }]

/-- C6 witness: three processes and total 8 give `min 10 3 = 3` rows. -/
theorem table_row_count_witness :
    0 < 8
    ∧ (tableDataRows 8 sampleProcs
          = Except.ok (((sortByMemDesc sampleProcs).take 10).map
              fun p => (p.name, 100 * p.memory / 8))
      ∧ (((sortByMemDesc sampleProcs).take 10).map
            fun p => (p.name, 100 * p.memory / 8)).length
          = min 10 sampleProcs.length) :=
  ⟨by decide, table_row_count 8 sampleProcs (by decide)⟩

/-! ### Claim theorems: CPU gauge -/

/-- C4: for raw CPU usage in the u16-representable range, the gauge fill
is the truncation `⌊q⌋` of the raw usage — never the rounding — while the
label is the rounded value with a trailing `%`; in particular raw usage
99.6 gives gauge fill 99 and label "100%". -/
theorem cpu_fill_trunc_label_round (q : ℚ) (_h0 : 0 ≤ q) (h1 : q < 65536) :
    usageBarPercent q = ⌊q⌋.toNat
    ∧ usageBarLabel q = toString (round q) ++ "%"
    ∧ usageBarPercent (498 / 5 : ℚ) = 99
    ∧ usageBarLabel (498 / 5 : ℚ) = "100%" := by
  refine ⟨?_, rfl, ?_, ?_⟩
  · have hf : ⌊q⌋ < 65536 := by
      rw [Int.floor_lt]
      exact_mod_cast h1
    have hle : ⌊q⌋.toNat ≤ 65535 := by omega
    simpa [usageBarPercent, f32ToU16] using min_eq_left hle
  · norm_num [usageBarPercent, f32ToU16]
    decide
  · have h : round (498 / 5 : ℚ) = 100 := by norm_num [round_eq]
    rw [usageBarLabel, h]
    rfl

/-- C4 witness at raw usage 99.6 = 498/5. -/
theorem cpu_fill_trunc_label_round_witness :
    (0 ≤ (498 / 5 : ℚ) ∧ (498 / 5 : ℚ) < 65536)
    ∧ (usageBarPercent (498 / 5 : ℚ) = ⌊(498 / 5 : ℚ)⌋.toNat
      ∧ usageBarLabel (498 / 5 : ℚ) = toString (round (498 / 5 : ℚ)) ++ "%"
      ∧ usageBarPercent (498 / 5 : ℚ) = 99
      ∧ usageBarLabel (498 / 5 : ℚ) = "100%") :=
  ⟨⟨by norm_num, by norm_num⟩,
    cpu_fill_trunc_label_round (498 / 5 : ℚ) (by norm_num) (by norm_num)⟩

end Supermarket

namespace Supermarket

/-! ### Claim theorems: memory gauge -/

/-- C1 counterexample: at used = 2, total = 3 the exact percentage is
200/3 ≈ 66.7; the gauge fill is the truncation 66 while the label shows
the rounded 67 — the fill does not equal the rounded integer shown in the
label. -/
theorem memory_fill_not_rounded :
    memoryBarPercent 2 3 = 66
    ∧ memoryBarLabelVal 2 3 = some 67
    ∧ (66 : ℤ) ≠ 67 := by
  refine ⟨?_, ?_, by decide⟩
  · norm_num [memoryBarPercent, f32ToU16]
    decide
  · norm_num [memoryBarLabelVal, round_eq]

/-- C1 amended: for every snapshot with total > 0 and used ≤ total, the
memory gauge fill equals the truncated percentage `100 * used / total`
(natural division) and lies in [0, 100], while the text label shows the
rounded percentage; the rounded label value equals the fill or the fill
plus one. -/
theorem memory_fill_trunc_label_round (u t : ℕ) (ht : 0 < t) (hu : u ≤ t) :
    memoryBarPercent u t = 100 * u / t
    ∧ memoryBarPercent u t ≤ 100
    ∧ memoryBarLabelVal u t = some (round (100 * ((u : ℚ) / t)))
    ∧ (memoryBarPercent u t : ℤ) ≤ round (100 * ((u : ℚ) / t))
    ∧ round (100 * ((u : ℚ) / t)) ≤ (memoryBarPercent u t : ℤ) + 1 := by
  have htne : t ≠ 0 := ht.ne'
  have hv : 100 * ((u : ℚ) / t) = ((100 * u : ℕ) : ℚ) / ((t : ℕ) : ℚ) := by
    push_cast
    ring
  have hfloor : ⌊100 * ((u : ℚ) / t)⌋ = ((100 * u / t : ℕ) : ℤ) := by
    rw [hv, Rat.floor_natCast_div_natCast, ← Int.natCast_div]
  have hle : 100 * u / t ≤ 100 := by
    have h1 : 100 * u ≤ 100 * t := Nat.mul_le_mul_left 100 hu
    have h2 : 100 * u / t ≤ 100 * t / t := Nat.div_le_div_right h1
    have h3 : 100 * t / t = 100 := Nat.mul_div_cancel 100 ht
    omega
  have hfill : memoryBarPercent u t = 100 * u / t := by
    unfold memoryBarPercent f32ToU16
    rw [if_neg htne, hfloor, Int.toNat_natCast]
    exact min_eq_left (hle.trans (by norm_num))
  have hlabel : memoryBarLabelVal u t = some (round (100 * ((u : ℚ) / t))) := by
    unfold memoryBarLabelVal
    rw [if_neg htne]
  have hr := round_eq (100 * ((u : ℚ) / t))
  have hlow : ⌊100 * ((u : ℚ) / t)⌋ ≤ round (100 * ((u : ℚ) / t)) := by
    rw [hr]
    exact Int.floor_mono (by linarith)
  have hhigh : round (100 * ((u : ℚ) / t)) ≤ ⌊100 * ((u : ℚ) / t)⌋ + 1 := by
    rw [hr]
    calc ⌊100 * ((u : ℚ) / t) + 1 / 2⌋
        ≤ ⌊100 * ((u : ℚ) / t) + 1⌋ := Int.floor_mono (by linarith)
      _ = ⌊100 * ((u : ℚ) / t)⌋ + 1 := Int.floor_add_one _
  refine ⟨hfill, hfill ▸ hle, hlabel, ?_, ?_⟩
  · rw [hfill, ← hfloor]
    exact hlow
  · rw [hfill, ← hfloor]
    exact hhigh

/-- C1 witness for the amended statement, at used = 1, total = 2. -/
theorem memory_fill_trunc_label_round_witness :
    (0 < 2 ∧ 1 ≤ 2)
    ∧ (memoryBarPercent 1 2 = 100 * 1 / 2
      ∧ memoryBarPercent 1 2 ≤ 100
      ∧ memoryBarLabelVal 1 2 = some (round (100 * (((1 : ℕ) : ℚ) / ((2 : ℕ) : ℚ))))
      ∧ (memoryBarPercent 1 2 : ℤ) ≤ round (100 * (((1 : ℕ) : ℚ) / ((2 : ℕ) : ℚ)))
      ∧ round (100 * (((1 : ℕ) : ℚ) / ((2 : ℕ) : ℚ))) ≤ (memoryBarPercent 1 2 : ℤ) + 1) :=
  ⟨⟨by decide, by decide⟩, memory_fill_trunc_label_round 1 2 (by decide) (by decide)⟩

end Supermarket

namespace Supermarket

/-! ### Claim theorems: faults in the render pass -/

lemma bind_ok {ε α β : Type} {x : Except ε α} {f : α → Except ε β}
    (h : exceptOk (x >>= f) = true) :
    ∃ a, x = Except.ok a ∧ exceptOk (f a) = true := by
  cases x with
  | ok a => exact ⟨a, rfl, h⟩
  | error e => exact absurd h (by simp [Bind.bind, Except.bind, exceptOk])

/-- C9: a snapshot missing any required host-identity field or the
physical core count makes the render pass fault: the `expect` panic
aborts it, with no retry and no default substituted. -/
theorem missing_identity_fatal (s : Snapshot)
    (h : s.name = none ∨ s.hostName = none ∨ s.osVersion = none
        ∨ s.kernelVersion = none ∨ s.physicalCoreCount = none) :
    exceptOk (render s) = false := by
  by_contra hne
  have hok : exceptOk (render s) = true := by
    cases hb : exceptOk (render s)
    · exact absurd hb hne
    · rfl
  unfold render at hok
  obtain ⟨memP, hmem, hok⟩ := bind_ok hok
  obtain ⟨cpuP, hcpu, hok⟩ := bind_ok hok
  obtain ⟨rows, hrows, hok⟩ := bind_ok hok
  obtain ⟨nm, hnm, hok⟩ := bind_ok hok
  obtain ⟨hn, hhn, hok⟩ := bind_ok hok
  obtain ⟨ov, hov, hok⟩ := bind_ok hok
  obtain ⟨kv, hkv, hok⟩ := bind_ok hok
  obtain ⟨cc, hcc, hok⟩ := bind_ok hok
  rcases h with h | h | h | h | h
  · rw [h] at hnm
    simp [expectField] at hnm
  · rw [h] at hhn
    simp [expectField] at hhn
  · rw [h] at hov
    simp [expectField] at hov
  · rw [h] at hkv
    simp [expectField] at hkv
  · rw [h] at hcc
    simp [expectField] at hcc

/-- The C9 witness snapshot: kernel version absent, all else present. -/
def kernelAbsentSnap : Snapshot :=
  { name := some "Linux", hostName := some "host", osVersion := some "1.0",
    kernelVersion := none, physicalCoreCount := some 4,
    totalMemory := 8, usedMemory := 4, cpuUsage := 25,
    processes := [] }

/-- C9 witness: the provider reports the kernel version absent and the
render pass faults. -/
theorem missing_identity_fatal_witness :
    (kernelAbsentSnap.name = none ∨ kernelAbsentSnap.hostName = none
      ∨ kernelAbsentSnap.osVersion = none ∨ kernelAbsentSnap.kernelVersion = none
      ∨ kernelAbsentSnap.physicalCoreCount = none)
    ∧ exceptOk (render kernelAbsentSnap) = false :=
  ⟨Or.inr (Or.inr (Or.inr (Or.inl rfl))),
    missing_identity_fatal kernelAbsentSnap (Or.inr (Or.inr (Or.inr (Or.inl rfl))))⟩

/-- The C2 failing input: zero total memory and one resident process. -/
def zeroTotalSnap : Snapshot :=
  { name := some "Linux", hostName := some "host", osVersion := some "1.0",
    kernelVersion := some "6.1", physicalCoreCount := some 4,
    totalMemory := 0, usedMemory := 0, cpuUsage := 0,
    processes := [{ pid := 1, name := "init", memory := 5 }] }

/-- C2: at total memory 0 the render pass faults instead of substituting
0%: the per-process row computes `100 * 5 / 0`, a Rust integer division
by zero, which panics. -/
theorem zero_total_memory_faults :
    processRowPercent 5 0 = Except.error "attempt to divide by zero"
    ∧ exceptOk (render zeroTotalSnap) = false := by
  constructor
  · rfl
  · simp [render, zeroTotalSnap, memoryBarPercent, usageBarPercent, f32ToU16,
      gaugeSetPercent, tableDataRows, sortByMemDesc, insertByMemDesc, buildRows,
      processRowPercent, expectField, exceptOk, Bind.bind, Except.bind]

/-- The C5 failing input: raw CPU usage 150.0, everything else benign. -/
def overloadSnap : Snapshot :=
  { name := some "Linux", hostName := some "host", osVersion := some "1.0",
    kernelVersion := some "6.1", physicalCoreCount := some 4,
    totalMemory := 8, usedMemory := 4, cpuUsage := 150,
    processes := [] }

/-- C5: at raw usage 150.0 the gauge fill is the unclamped truncation
150, outside the widget's accepted range 0..=100, and the render pass
faults — the fill is not clamped into the accepted range. -/
theorem cpu_over_100_unclamped :
    usageBarPercent 150 = 150
    ∧ gaugeSetPercent (usageBarPercent 150)
        = Except.error "Percentage should be between 0 and 100 inclusively"
    ∧ exceptOk (render overloadSnap) = false := by
  have hc : usageBarPercent (150 : ℚ) = 150 := by
    norm_num [usageBarPercent, f32ToU16]
    decide
  refine ⟨hc, ?_, ?_⟩
  · rw [hc]
    rfl
  · have hm : memoryBarPercent 4 8 = 50 := by
      norm_num [memoryBarPercent, f32ToU16]
      decide
    simp [render, overloadSnap, hm, hc, gaugeSetPercent, tableDataRows,
      sortByMemDesc, buildRows, expectField, exceptOk, Bind.bind, Except.bind]

end Supermarket
